import Mathlib

/-!
Shallow embedding of `src/create_icons.py` (`create_png` and `create_chunk`).

Byte strings are modelled as `List Nat`, with every byte kept below 256 by
construction.  Python float arithmetic in the gradient computation is modelled
as exact rational arithmetic (`ℚ`), and Python's `int(...)` as truncation
toward zero.  The external library routines `zlib.crc32` and
`zlib.compress(..., 9)` are not part of the repository; they are modelled from
the spec (standard CRC-32; a zlib-wrapped DEFLATE stream framed with the
level-9 zlib header, stored DEFLATE blocks and an Adler-32 trailer).
-/

set_option maxRecDepth 100000

namespace CreateIcons

/-- Python `int(...)` applied to an exact rational value: truncation toward
zero, i.e. T-division of the numerator by the denominator. -/
def py_int (q : ℚ) : ℤ := q.num.tdiv q.den

/-- The fixed 8-byte PNG signature `b'\x89PNG\r\n\x1a\n'` from the source. -/
def png_signature : List Nat := [0x89, 0x50, 0x4E, 0x47, 0x0D, 0x0A, 0x1A, 0x0A]

/-- Python `struct.pack` with format `>I`: 4-byte big-endian encoding of an
unsigned 32-bit value.  `struct.pack` raises `struct.error` for values outside
[0, 2^32); this encoding is faithful only on that domain, so every theorem
about a call of the program that returns carries explicit `< 2 ^ 32` bounds on
the values packed. -/
def be32 (n : Nat) : List Nat := [n / 2 ^ 24 % 256, n / 2 ^ 16 % 256, n / 2 ^ 8 % 256, n % 256]

/-- Big-endian decoding of a 4-byte list (0 on any other shape). -/
def be32_decode : List Nat → Nat
  | [a, b, c, d] => ((a * 256 + b) * 256 + c) * 256 + d
  | _ => 0

/-- Modelled from the spec: `zlib.crc32` is external library code.  One bit
step of the standard reflected CRC-32 with polynomial `0xEDB88320`. -/
def crc32_bit (c : Nat) : Nat := if c % 2 = 1 then (c / 2) ^^^ 0xEDB88320 else c / 2

/-- Modelled from the spec: one byte step of the standard CRC-32 (xor the byte
into the register, then eight bit steps). -/
def crc32_update (c b : Nat) : Nat := crc32_bit^[8] (c ^^^ b)

/-- Modelled from the spec: `zlib.crc32` — the standard CRC-32: initial value
`0xFFFFFFFF`, a byte step per input byte, final inversion. -/
def crc32 (data : List Nat) : Nat := (data.foldl crc32_update 0xFFFFFFFF) ^^^ 0xFFFFFFFF

/-- Translation of `create_chunk` from src/create_icons.py: 4-byte big-endian
payload length, type tag, payload, 4-byte big-endian CRC-32 over tag ++
payload.  Python's `& 0xffffffff` is written `% 2 ^ 32`. -/
def create_chunk (chunk_type data : List Nat) : List Nat :=
  let length := be32 data.length
  let chunk_data := chunk_type ++ data
  let crc := be32 (crc32 chunk_data % 2 ^ 32)
  length ++ chunk_data ++ crc

/-- Bytes appended for one pixel: the body of the `for x` loop of
`create_png`, with `x_factor = x / width` and `0.2` as the exact `2 / 10`. -/
def pixel_bytes (r2 g2 b2 : ℤ) (width x : Nat) : List Nat :=
  let x_factor : ℚ := (x : ℚ) / (width : ℚ)
  [(max 0 (min 255 (py_int ((r2 : ℚ) - (r2 : ℚ) * x_factor * (2 / 10))))).toNat,
   (max 0 (min 255 (py_int ((g2 : ℚ) - (g2 : ℚ) * x_factor * (2 / 10))))).toNat,
   (max 0 (min 255 (py_int ((b2 : ℚ) - (b2 : ℚ) * x_factor * (2 / 10))))).toNat]

/-- Bytes appended for one row: the body of the `for y` loop of `create_png` —
the filter-type byte 0, then the row's pixels, with `factor = y / height` and
`0.3` as the exact `3 / 10`. -/
def row_bytes (width height : Nat) (color_rgb : Nat × Nat × Nat) (y : Nat) : List Nat :=
  let factor : ℚ := (y : ℚ) / (height : ℚ)
  let r2 : ℤ := py_int ((color_rgb.1 : ℚ) * (1 - factor * (3 / 10)))
  let g2 : ℤ := py_int ((color_rgb.2.1 : ℚ) * (1 - factor * (3 / 10)))
  let b2 : ℤ := py_int ((color_rgb.2.2 : ℚ) * (1 - factor * (3 / 10)))
  0 :: (List.range width).flatMap (pixel_bytes r2 g2 b2 width)

/-- The uncompressed scanline stream `image_data` built by the two nested
loops of `create_png`. -/
def image_data (width height : Nat) (color_rgb : Nat × Nat × Nat) : List Nat :=
  (List.range height).flatMap (row_bytes width height color_rgb)

/-- Modelled from the spec: the Adler-32 checksum forming the 4-byte zlib
trailer. -/
def adler32 (data : List Nat) : Nat :=
  let s := data.foldl (fun p b => ((p.1 + b) % 65521, (p.2 + (p.1 + b) % 65521) % 65521)) (1, 0)
  s.2 * 65536 + s.1

/-- Little-endian 2-byte encoding used by stored DEFLATE blocks. -/
def le16 (n : Nat) : List Nat := [n % 256, n / 256 % 256]

/-- Modelled from the spec: a DEFLATE stream made of stored (uncompressed)
blocks — header byte (BFINAL + BTYPE=00), LEN and its complement NLEN as
little-endian 16-bit values, then the literal bytes. -/
def deflate_stored (data : List Nat) : List Nat :=
  if _h : data.length ≤ 65535 then
    1 :: (le16 data.length ++ le16 (65535 - data.length) ++ data)
  else
    0 :: (le16 65535 ++ le16 0 ++ data.take 65535 ++ deflate_stored (data.drop 65535))
termination_by data.length
decreasing_by simp [List.length_drop]; omega

/-- Modelled from the spec: `zlib.compress(data, 9)` is external library
code.  Modelled as a zlib-compatible stream: the level-9 zlib header
`0x78 0xDA`, DEFLATE blocks, 4-byte Adler-32 trailer. -/
def zlib_compress (data : List Nat) : List Nat :=
  0x78 :: 0xDA :: (deflate_stored data ++ be32 (adler32 data))

/-- Modelled from the spec: inflate for stored DEFLATE blocks; returns the
decoded data and the remaining input after the final block. -/
def inflate_stored : Nat → List Nat → Option (List Nat × List Nat)
  | 0, _ => none
  | fuel + 1, b :: l0 :: l1 :: n0 :: n1 :: rest =>
    if b / 2 % 4 ≠ 0 then none
    else if n0 + 256 * n1 ≠ 65535 - (l0 + 256 * l1) then none
    else if rest.length < l0 + 256 * l1 then none
    else if b % 2 = 1 then some (rest.take (l0 + 256 * l1), rest.drop (l0 + 256 * l1))
    else
      match inflate_stored fuel (rest.drop (l0 + 256 * l1)) with
      | some (d, rem) => some (rest.take (l0 + 256 * l1) ++ d, rem)
      | none => none
  | _ + 1, _ => none

/-- Modelled from the spec: zlib decompression of the streams produced by
`zlib_compress` — check the header, inflate, check the Adler-32 trailer. -/
def zlib_decompress (s : List Nat) : Option (List Nat) :=
  match s with
  | h0 :: _ :: rest =>
    if h0 % 16 ≠ 8 then none
    else
      match inflate_stored (rest.length + 1) rest with
      | some (out, rem) => if rem = be32 (adler32 out) then some out else none
      | none => none
  | _ => none

/-- Translation of `create_png` from src/create_icons.py.  The two pixel loops
are factored into `image_data`; `zlib.compress(..., 9)` is the spec-modelled
`zlib_compress`. -/
def create_png (width height : Nat) (color_rgb : Nat × Nat × Nat) : List Nat :=
  let ihdr_data := be32 width ++ be32 height ++ [8, 2, 0, 0, 0]
  let ihdr_chunk := create_chunk [0x49, 0x48, 0x44, 0x52] ihdr_data
  let compressed_data := zlib_compress (image_data width height color_rgb)
  let idat_chunk := create_chunk [0x49, 0x44, 0x41, 0x54] compressed_data
  let iend_chunk := create_chunk [0x49, 0x45, 0x4E, 0x44] []
  png_signature ++ ihdr_chunk ++ idat_chunk ++ iend_chunk

/-- Chunk-stream parser: reads length, type, payload and CRC of each chunk in
sequence.  The fuel argument bounds the recursion. -/
def parse_chunks : Nat → List Nat → Option (List (List Nat × List Nat))
  | 0, _ => none
  | fuel + 1, s =>
    if s = [] then some []
    else if s.length < 12 then none
    else if s.length < 12 + be32_decode (s.take 4) then none
    else
      match parse_chunks fuel (s.drop (12 + be32_decode (s.take 4))) with
      | some rest =>
        some (((s.drop 4).take 4, (s.drop 8).take (be32_decode (s.take 4))) :: rest)
      | none => none

/-- Chunk list of a PNG file: checks the signature, then parses the chunk
stream that follows it. -/
def png_chunks (file : List Nat) : Option (List (List Nat × List Nat)) :=
  if file.take 8 = png_signature then parse_chunks (file.length + 1) (file.drop 8) else none

/-- Concatenation of the payloads of all IDAT chunks of a PNG file. -/
def idat_payloads (file : List Nat) : Option (List Nat) :=
  (png_chunks file).map fun cs =>
    ((cs.filter fun c => c.1 == [0x49, 0x44, 0x41, 0x54]).map Prod.snd).flatten

/-- The claim's own description of one pixel channel: the base channel is
first darkened by up to 30% proportionally to `y / height`; the
already-vertically-darkened value is then further darkened by up to 20%
proportionally to `x / width`; the result is clamped to [0, 255]. -/
def spec_gradient_channel (c width height x y : Nat) : Nat :=
  let fv : ℚ := (y : ℚ) / (height : ℚ)
  let vert : ℤ := py_int ((c : ℚ) * (1 - fv * (3 / 10)))
  let fh : ℚ := (x : ℚ) / (width : ℚ)
  let horiz : ℤ := py_int ((vert : ℚ) * (1 - fh * (2 / 10)))
  (min 255 (max 0 horiz)).toNat

lemma be32_length (n : Nat) : (be32 n).length = 4 := rfl

lemma png_signature_length : png_signature.length = 8 := rfl

lemma be32_decode_be32 (n : Nat) : be32_decode (be32 n) = n % 2 ^ 32 := by
  simp only [be32, be32_decode]
  omega

lemma create_chunk_eq (t d : List Nat) :
    create_chunk t d = be32 d.length ++ (t ++ d) ++ be32 (crc32 (t ++ d) % 2 ^ 32) := rfl

lemma create_chunk_length (t d : List Nat) (ht : t.length = 4) :
    (create_chunk t d).length = 12 + d.length := by
  simp [create_chunk, be32, ht]
  omega

lemma xor_lt_two_pow {x y n : Nat} (hx : x < 2 ^ n) (hy : y < 2 ^ n) : x ^^^ y < 2 ^ n :=
  Nat.bitwise_lt_two_pow hx hy

lemma crc32_bit_lt {c : Nat} (h : c < 2 ^ 32) : crc32_bit c < 2 ^ 32 := by
  unfold crc32_bit
  split
  · exact xor_lt_two_pow (by omega) (by norm_num)
  · omega

lemma crc32_update_lt {c b : Nat} (hc : c < 2 ^ 32) (hb : b < 256) :
    crc32_update c b < 2 ^ 32 := by
  have hxor : c ^^^ b < 2 ^ 32 := xor_lt_two_pow hc (by omega)
  unfold crc32_update
  have : ∀ k x, x < 2 ^ 32 → crc32_bit^[k] x < 2 ^ 32 := by
    intro k
    induction k with
    | zero => intro x hx; exact hx
    | succ m ih =>
      intro x hx
      rw [Function.iterate_succ_apply]
      exact ih _ (crc32_bit_lt hx)
  exact this 8 _ hxor

lemma crc32_lt (data : List Nat) (hd : ∀ b ∈ data, b < 256) : crc32 data < 2 ^ 32 := by
  unfold crc32
  have : ∀ c, c < 2 ^ 32 → data.foldl crc32_update c < 2 ^ 32 := by
    induction data with
    | nil => intro c hc; simpa using hc
    | cons a t ih =>
      intro c hc
      simp only [List.foldl_cons]
      exact ih (fun b hb => hd b (by simp [hb])) _
        (crc32_update_lt hc (hd a (by simp)))
  exact xor_lt_two_pow (this _ (by norm_num)) (by norm_num)

lemma getElem?_eq_head?_drop {α : Type} (l : List α) (n : Nat) :
    l[n]? = (l.drop n).head? := by
  induction l generalizing n with
  | nil => simp
  | cons a t ih =>
    cases n with
    | zero => simp
    | succ m => simp only [List.getElem?_cons_succ, List.drop_succ_cons]; exact ih m

lemma length_flatMap_const {α : Type} (l : List α) (f : α → List Nat) (L : Nat)
    (hf : ∀ a ∈ l, (f a).length = L) : (l.flatMap f).length = l.length * L := by
  induction l with
  | nil => simp
  | cons a t ih =>
    simp only [List.flatMap_cons, List.length_append, List.length_cons]
    rw [hf a (by simp), ih (fun x hx => hf x (by simp [hx]))]
    ring

lemma flatMap_range'_drop (f : Nat → List Nat) (L : Nat) (hf : ∀ i, (f i).length = L) :
    ∀ y n a, y < n →
      ((List.range' a n).flatMap f).drop (y * L) =
        f (a + y) ++ (List.range' (a + y + 1) (n - y - 1)).flatMap f := by
  intro y
  induction y with
  | zero =>
    intro n a hn
    obtain ⟨m, rfl⟩ : ∃ m, n = m + 1 := ⟨n - 1, by omega⟩
    simp [List.range'_succ]
  | succ k ih =>
    intro n a hn
    obtain ⟨m, rfl⟩ : ∃ m, n = m + 1 := ⟨n - 1, by omega⟩
    rw [List.range'_succ, List.flatMap_cons]
    have h1 : (k + 1) * L = L + k * L := by ring
    rw [h1, ← List.drop_drop, List.drop_left' (hf a)]
    have h2 := ih m (a + 1) (by omega)
    rw [h2]
    have h3 : a + 1 + k = a + (k + 1) := by omega
    have h4 : m - k - 1 = m + 1 - (k + 1) - 1 := by omega
    rw [h3, h4]

lemma pixel_bytes_length (r2 g2 b2 : ℤ) (w x : Nat) :
    (pixel_bytes r2 g2 b2 w x).length = 3 := rfl

lemma row_bytes_length (w h : Nat) (c : Nat × Nat × Nat) (y : Nat) :
    (row_bytes w h c y).length = 1 + w * 3 := by
  simp only [row_bytes, List.length_cons]
  rw [length_flatMap_const _ _ 3 (fun a _ => pixel_bytes_length _ _ _ _ _)]
  simp only [List.length_range]
  omega

lemma image_data_length (w h : Nat) (c : Nat × Nat × Nat) :
    (image_data w h c).length = h * (1 + w * 3) := by
  rw [image_data, length_flatMap_const _ _ (1 + w * 3) (fun a _ => row_bytes_length _ _ _ _)]
  simp

lemma image_data_drop (w h : Nat) (c : Nat × Nat × Nat) (y : Nat) (hy : y < h) :
    (image_data w h c).drop (y * (1 + w * 3)) =
      row_bytes w h c y ++ (List.range' (y + 1) (h - y - 1)).flatMap (row_bytes w h c) := by
  rw [image_data, List.range_eq_range']
  have := flatMap_range'_drop (row_bytes w h c) (1 + w * 3) (row_bytes_length w h c) y h 0 hy
  simpa using this

lemma create_png_eq (w h : Nat) (c : Nat × Nat × Nat) :
    create_png w h c =
      png_signature
        ++ create_chunk [0x49, 0x48, 0x44, 0x52] (be32 w ++ be32 h ++ [8, 2, 0, 0, 0])
        ++ create_chunk [0x49, 0x44, 0x41, 0x54] (zlib_compress (image_data w h c))
        ++ create_chunk [0x49, 0x45, 0x4E, 0x44] [] := rfl

lemma create_png_take8 (w h : Nat) (c : Nat × Nat × Nat) :
    (create_png w h c).take 8 = png_signature := by
  rw [create_png_eq]
  simp only [List.append_assoc]
  exact List.take_left' rfl

lemma ihdr_chunk_length (w h : Nat) :
    (create_chunk [0x49, 0x48, 0x44, 0x52] (be32 w ++ be32 h ++ [8, 2, 0, 0, 0])).length = 25 := by
  rw [create_chunk_length [0x49, 0x48, 0x44, 0x52] _ rfl]
  simp [be32]

lemma idat_chunk_length (d : List Nat) :
    (create_chunk [0x49, 0x44, 0x41, 0x54] d).length = 12 + d.length :=
  create_chunk_length [0x49, 0x44, 0x41, 0x54] d rfl

lemma iend_chunk_length :
    (create_chunk [0x49, 0x45, 0x4E, 0x44] ([] : List Nat)).length = 12 := by
  rw [create_chunk_length [0x49, 0x45, 0x4E, 0x44] [] rfl]
  rfl

lemma create_png_length (w h : Nat) (c : Nat × Nat × Nat) :
    (create_png w h c).length = 57 + (zlib_compress (image_data w h c)).length := by
  rw [create_png_eq]
  simp only [List.length_append, ihdr_chunk_length, idat_chunk_length, iend_chunk_length,
    png_signature_length]
  omega

lemma create_png_iend (w h : Nat) (c : Nat × Nat × Nat) :
    (create_png w h c).drop ((create_png w h c).length - 12) =
      create_chunk [0x49, 0x45, 0x4E, 0x44] [] := by
  rw [create_png_eq]
  apply List.drop_left'
  simp only [List.length_append, ihdr_chunk_length, idat_chunk_length, iend_chunk_length,
    png_signature_length]
  omega

lemma deflate_stored_le (data : List Nat) : data.length ≤ (deflate_stored data).length := by
  induction data using deflate_stored.induct with
  | case1 data hle =>
    rw [deflate_stored, dif_pos hle]
    simp [le16]
    omega
  | case2 data hle ih =>
    rw [deflate_stored, dif_neg hle]
    simp only [le16, List.length_cons, List.length_append, List.length_take, List.length_drop]
      at ih ⊢
    omega

lemma inflate_deflate :
    ∀ fuel (data tail : List Nat), data.length < fuel →
      inflate_stored fuel (deflate_stored data ++ tail) = some (data, tail) := by
  intro fuel
  induction fuel with
  | zero => intro data tail hf; omega
  | succ fuel ih =>
    intro data tail hf
    by_cases hle : data.length ≤ 65535
    · rw [deflate_stored, dif_pos hle]
      have hlen : data.length % 256 + 256 * (data.length / 256 % 256) = data.length := by
        omega
      have hnlen : (65535 - data.length) % 256 + 256 * ((65535 - data.length) / 256 % 256) =
          65535 - data.length := by omega
      simp only [le16, List.cons_append, List.append_assoc, List.nil_append]
      rw [inflate_stored]
      simp only [hlen, hnlen]
      rw [if_neg (by decide), if_neg (by omega),
        if_neg (by rw [List.length_append]; omega), if_pos (by decide)]
      rw [List.take_left, List.drop_left]
    · rw [deflate_stored, dif_neg hle]
      have htake : (data.take 65535).length = 65535 := by
        rw [List.length_take]; omega
      simp only [le16, List.cons_append, List.append_assoc, List.nil_append]
      rw [inflate_stored]
      have h65 : (65535 : Nat) % 256 + 256 * (65535 / 256 % 256) = 65535 := by norm_num
      have h0 : (0 : Nat) % 256 + 256 * (0 / 256 % 256) = 0 := by norm_num
      simp only [h65, h0]
      rw [if_neg (by decide), if_neg (by omega),
        if_neg (by simp only [List.length_append, htake]; omega), if_neg (by decide)]
      rw [List.drop_left' htake, ih (data.drop 65535) tail (by
        rw [List.length_drop]; omega)]
      simp only [Option.some.injEq, Prod.mk.injEq]
      rw [List.take_left' htake, List.take_append_drop]
      simp

lemma zlib_decompress_compress (data : List Nat) :
    zlib_decompress (zlib_compress data) = some data := by
  have hle : data.length ≤ (deflate_stored data).length := deflate_stored_le data
  rw [zlib_compress, zlib_decompress]
  rw [if_neg (by decide)]
  rw [inflate_deflate _ data (be32 (adler32 data)) (by
    simp only [List.length_append, be32_length]; omega)]
  simp

lemma drop_append_len {α : Type} (a x : List α) (k : Nat) :
    (a ++ x).drop (a.length + k) = x.drop k := by
  rw [← List.drop_drop, List.drop_left]

lemma parse_chunks_nil (fuel : Nat) (hfuel : 0 < fuel) : parse_chunks fuel [] = some [] := by
  obtain ⟨f, rfl⟩ : ∃ f, fuel = f + 1 := ⟨fuel - 1, by omega⟩
  rw [parse_chunks]
  simp

lemma parse_chunks_cons (fuel : Nat) (hfuel : 0 < fuel) (t d rest : List Nat)
    (ht : t.length = 4) (hd : d.length < 2 ^ 32) :
    parse_chunks fuel (create_chunk t d ++ rest) =
      (parse_chunks (fuel - 1) rest).map (fun l => (t, d) :: l) := by
  obtain ⟨f, rfl⟩ : ∃ f, fuel = f + 1 := ⟨fuel - 1, by omega⟩
  have hs : create_chunk t d ++ rest =
      be32 d.length ++ (t ++ (d ++ (be32 (crc32 (t ++ d) % 2 ^ 32) ++ rest))) := by
    rw [create_chunk_eq]
    simp [List.append_assoc]
  rw [hs, parse_chunks]
  have htake4 :
      (be32 d.length ++ (t ++ (d ++ (be32 (crc32 (t ++ d) % 2 ^ 32) ++ rest)))).take 4 =
        be32 d.length := List.take_left' (be32_length _)
  have hdec :
      be32_decode
        ((be32 d.length ++ (t ++ (d ++ (be32 (crc32 (t ++ d) % 2 ^ 32) ++ rest)))).take 4) =
        d.length := by
    rw [htake4, be32_decode_be32, Nat.mod_eq_of_lt hd]
  have hlen :
      (be32 d.length ++ (t ++ (d ++ (be32 (crc32 (t ++ d) % 2 ^ 32) ++ rest)))).length =
        12 + d.length + rest.length := by
    simp only [List.length_append, be32_length, ht]
    omega
  rw [hdec]
  rw [if_neg (by simp [be32]), if_neg (by rw [hlen]; omega), if_neg (by rw [hlen]; omega)]
  have hdrop12 :
      (be32 d.length ++ (t ++ (d ++ (be32 (crc32 (t ++ d) % 2 ^ 32) ++ rest)))).drop
          (12 + d.length) = rest := by
    rw [show 12 + d.length = (be32 d.length).length + (8 + d.length) by
      simp [be32_length]; omega]
    rw [drop_append_len]
    rw [show 8 + d.length = t.length + (4 + d.length) by rw [ht]; omega]
    rw [drop_append_len]
    rw [show 4 + d.length = d.length + 4 by omega]
    rw [drop_append_len]
    rw [show (4 : Nat) = (be32 (crc32 (t ++ d) % 2 ^ 32)).length + 0 by simp [be32_length]]
    rw [drop_append_len, List.drop_zero]
  have hdrop4 :
      ((be32 d.length ++ (t ++ (d ++ (be32 (crc32 (t ++ d) % 2 ^ 32) ++ rest)))).drop 4).take 4 =
        t := by
    rw [List.drop_left' (be32_length _)]
    exact List.take_left' ht
  have hdrop8 :
      ((be32 d.length ++ (t ++ (d ++ (be32 (crc32 (t ++ d) % 2 ^ 32) ++ rest)))).drop 8).take
          d.length = d := by
    rw [show (8 : Nat) = (be32 d.length).length + 4 by simp [be32_length]]
    rw [drop_append_len, List.drop_left' ht, List.take_left]
  rw [hdrop12, hdrop4, hdrop8]
  simp only [Nat.add_sub_cancel]
  cases parse_chunks f rest <;> simp

lemma ihdr_data_length (w h : Nat) : (be32 w ++ be32 h ++ [8, 2, 0, 0, 0]).length = 13 := by
  simp [be32]

lemma create_png_drop8 (w h : Nat) (c : Nat × Nat × Nat) :
    (create_png w h c).drop 8 =
      create_chunk [0x49, 0x48, 0x44, 0x52] (be32 w ++ be32 h ++ [8, 2, 0, 0, 0]) ++
        (create_chunk [0x49, 0x44, 0x41, 0x54] (zlib_compress (image_data w h c)) ++
          create_chunk [0x49, 0x45, 0x4E, 0x44] []) := by
  rw [create_png_eq]
  simp only [List.append_assoc]
  rw [List.drop_left' png_signature_length]

lemma png_chunks_create_png (w h : Nat) (c : Nat × Nat × Nat)
    (hclen : (zlib_compress (image_data w h c)).length < 2 ^ 32) :
    png_chunks (create_png w h c) =
      some [([0x49, 0x48, 0x44, 0x52], be32 w ++ be32 h ++ [8, 2, 0, 0, 0]),
            ([0x49, 0x44, 0x41, 0x54], zlib_compress (image_data w h c)),
            ([0x49, 0x45, 0x4E, 0x44], [])] := by
  have hfuel : (create_png w h c).length + 1 = 58 + (zlib_compress (image_data w h c)).length := by
    rw [create_png_length]
    omega
  rw [png_chunks, if_pos (create_png_take8 w h c), create_png_drop8, hfuel]
  rw [parse_chunks_cons _ (by omega) [0x49, 0x48, 0x44, 0x52] _ _ rfl
    (by rw [ihdr_data_length]; norm_num)]
  rw [parse_chunks_cons _ (by omega) [0x49, 0x44, 0x41, 0x54] _ _ rfl hclen]
  rw [show create_chunk [0x49, 0x45, 0x4E, 0x44] [] =
    create_chunk [0x49, 0x45, 0x4E, 0x44] [] ++ [] by rw [List.append_nil]]
  rw [parse_chunks_cons _ (by omega) [0x49, 0x45, 0x4E, 0x44] [] [] rfl (by norm_num)]
  rw [parse_chunks_nil _ (by omega)]
  simp

lemma deflate_stored_length_le (data : List Nat) :
    (deflate_stored data).length ≤ 6 * data.length + 5 := by
  induction data using deflate_stored.induct with
  | case1 data hle =>
    rw [deflate_stored, dif_pos hle]
    simp only [le16, List.cons_append, List.length_cons, List.length_append, List.length_nil]
    omega
  | case2 data hle ih =>
    rw [deflate_stored, dif_neg hle]
    simp only [le16, List.cons_append, List.length_cons, List.length_append, List.length_nil,
      List.length_take, List.length_drop] at ih ⊢
    omega

lemma zlib_compress_length_le (data : List Nat) :
    (zlib_compress data).length ≤ 6 * data.length + 11 := by
  have := deflate_stored_length_le data
  simp only [zlib_compress, List.length_cons, List.length_append, be32_length]
  omega

lemma py_int_natCast (n : Nat) : py_int ((n : ℚ)) = (n : ℤ) := by
  rw [py_int, Rat.num_natCast, Rat.den_natCast]
  simp

lemma py_int_intCast (n : ℤ) : py_int ((n : ℚ)) = n := by
  rw [py_int, Rat.num_intCast, Rat.den_intCast]
  simp

lemma pixel_bytes_def (r2 g2 b2 : ℤ) (w x : Nat) :
    pixel_bytes r2 g2 b2 w x =
      [(max 0 (min 255 (py_int ((r2 : ℚ) - (r2 : ℚ) * ((x : ℚ) / (w : ℚ)) * (2 / 10))))).toNat,
       (max 0 (min 255 (py_int ((g2 : ℚ) - (g2 : ℚ) * ((x : ℚ) / (w : ℚ)) * (2 / 10))))).toNat,
       (max 0 (min 255 (py_int ((b2 : ℚ) - (b2 : ℚ) * ((x : ℚ) / (w : ℚ)) * (2 / 10))))).toNat] :=
  rfl

lemma row_bytes_def (w h r g b y : Nat) :
    row_bytes w h (r, g, b) y =
      0 :: (List.range w).flatMap
        (pixel_bytes (py_int ((r : ℚ) * (1 - ((y : ℚ) / (h : ℚ)) * (3 / 10))))
          (py_int ((g : ℚ) * (1 - ((y : ℚ) / (h : ℚ)) * (3 / 10))))
          (py_int ((b : ℚ) * (1 - ((y : ℚ) / (h : ℚ)) * (3 / 10)))) w) := rfl

lemma spec_gradient_channel_def (c w h x y : Nat) :
    spec_gradient_channel c w h x y =
      (min 255 (max 0 (py_int
        ((py_int ((c : ℚ) * (1 - ((y : ℚ) / (h : ℚ)) * (3 / 10))) : ℚ) *
          (1 - ((x : ℚ) / (w : ℚ)) * (2 / 10)))))).toNat := rfl

lemma clamp_comm (z : ℤ) : max 0 (min 255 z) = min 255 (max 0 z) := by omega

lemma pixel_code_channel_eq (v : ℤ) (fh : ℚ) :
    (max 0 (min 255 (py_int ((v : ℚ) - (v : ℚ) * fh * (2 / 10))))).toNat =
      (min 255 (max 0 (py_int ((v : ℚ) * (1 - fh * (2 / 10)))))).toNat := by
  rw [show (v : ℚ) - (v : ℚ) * fh * (2 / 10) = (v : ℚ) * (1 - fh * (2 / 10)) from by ring,
    clamp_comm]

lemma pixel_bytes_eq_spec (r g b w h x y : Nat) :
    pixel_bytes (py_int ((r : ℚ) * (1 - ((y : ℚ) / (h : ℚ)) * (3 / 10))))
        (py_int ((g : ℚ) * (1 - ((y : ℚ) / (h : ℚ)) * (3 / 10))))
        (py_int ((b : ℚ) * (1 - ((y : ℚ) / (h : ℚ)) * (3 / 10)))) w x =
      [spec_gradient_channel r w h x y, spec_gradient_channel g w h x y,
        spec_gradient_channel b w h x y] := by
  rw [pixel_bytes_def, spec_gradient_channel_def, spec_gradient_channel_def,
    spec_gradient_channel_def, pixel_code_channel_eq, pixel_code_channel_eq,
    pixel_code_channel_eq]

lemma image_data_pixel (w h r g b x y : Nat) (hx : x < w) (hy : y < h) :
    ((image_data w h (r, g, b)).drop (y * (1 + w * 3) + (1 + 3 * x))).take 3 =
      [spec_gradient_channel r w h x y, spec_gradient_channel g w h x y,
        spec_gradient_channel b w h x y] := by
  rw [← List.drop_drop, image_data_drop w h (r, g, b) y hy, row_bytes_def]
  rw [show 1 + 3 * x = 3 * x + 1 from by omega]
  rw [List.drop_append_of_le_length (by
    simp only [List.length_cons]
    rw [length_flatMap_const _ _ 3 (fun a _ => pixel_bytes_length _ _ _ _ _)]
    simp only [List.length_range]
    omega)]
  rw [List.drop_succ_cons]
  rw [List.range_eq_range']
  rw [show 3 * x = x * 3 from by omega]
  rw [flatMap_range'_drop _ 3 (fun i => pixel_bytes_length _ _ _ _ _) x w 0 hx]
  simp only [Nat.zero_add, List.append_assoc]
  rw [List.take_left' (pixel_bytes_length _ _ _ _ _)]
  exact pixel_bytes_eq_spec r g b w h x y

lemma image_data_one_one (r g b : Nat) (hr : r ≤ 255) (hg : g ≤ 255) (hb : b ≤ 255) :
    image_data 1 1 (r, g, b) = [0, r, g, b] := by
  rw [image_data, show List.range 1 = [0] from rfl]
  simp only [List.flatMap_cons, List.flatMap_nil, List.append_nil]
  rw [row_bytes_def, show List.range 1 = [0] from rfl]
  simp only [List.flatMap_cons, List.flatMap_nil, List.append_nil]
  rw [pixel_bytes_def]
  norm_num [py_int_natCast, py_int_intCast]
  omega

lemma idat_payloads_create_png (w h : Nat) (c : Nat × Nat × Nat)
    (hclen : (zlib_compress (image_data w h c)).length < 2 ^ 32) :
    idat_payloads (create_png w h c) = some (zlib_compress (image_data w h c)) := by
  rw [idat_payloads, png_chunks_create_png w h c hclen]
  simp

lemma pixel_bytes_le (r2 g2 b2 : ℤ) (w x : Nat) : ∀ v ∈ pixel_bytes r2 g2 b2 w x, v ≤ 255 := by
  rw [pixel_bytes_def]
  intro v hv
  simp only [List.mem_cons, List.not_mem_nil, or_false] at hv
  rcases hv with h | h | h <;> (subst h; omega)

lemma image_data_bytes_le (w h : Nat) (c : Nat × Nat × Nat) :
    ∀ v ∈ image_data w h c, v ≤ 255 := by
  intro v hv
  rw [image_data, List.mem_flatMap] at hv
  obtain ⟨y, _, hv⟩ := hv
  rcases c with ⟨r, g, b⟩
  rw [row_bytes_def, List.mem_cons] at hv
  rcases hv with rfl | hv
  · omega
  rw [List.mem_flatMap] at hv
  obtain ⟨x, _, hv⟩ := hv
  exact pixel_bytes_le _ _ _ _ _ v hv

lemma image_data_filter_byte (w h : Nat) (c : Nat × Nat × Nat) (y : Nat) (hy : y < h) :
    (image_data w h c)[y * (1 + w * 3)]? = some 0 := by
  rw [getElem?_eq_head?_drop, image_data_drop w h c y hy]
  rcases c with ⟨r, g, b⟩
  rw [row_bytes_def]
  rfl

lemma drop_append_len' {α : Type} (a x : List α) (n k : Nat) (hn : n = a.length + k) :
    (a ++ x).drop n = x.drop k := by
  subst hn
  exact drop_append_len a x k

lemma ihdr_chunk_drop8 (w h : Nat) :
    (create_chunk [0x49, 0x48, 0x44, 0x52] (be32 w ++ be32 h ++ [8, 2, 0, 0, 0])).drop 8 =
      (be32 w ++ be32 h ++ [8, 2, 0, 0, 0]) ++
        be32 (crc32 ([0x49, 0x48, 0x44, 0x52] ++ (be32 w ++ be32 h ++ [8, 2, 0, 0, 0])) %
          2 ^ 32) := by
  rw [create_chunk_eq]
  rw [List.append_assoc, drop_append_len' _ _ 8 4 (by rw [be32_length])]
  rw [List.append_assoc, drop_append_len' _ _ 4 0 (by rfl), List.drop_zero]

lemma create_png_drop16 (w h : Nat) (c : Nat × Nat × Nat) :
    (create_png w h c).drop 16 =
      be32 w ++ (be32 h ++ ([8, 2, 0, 0, 0] ++
        (be32 (crc32 ([0x49, 0x48, 0x44, 0x52] ++ (be32 w ++ be32 h ++ [8, 2, 0, 0, 0])) %
            2 ^ 32) ++
          (create_chunk [0x49, 0x44, 0x41, 0x54] (zlib_compress (image_data w h c)) ++
            create_chunk [0x49, 0x45, 0x4E, 0x44] [])))) := by
  rw [show (16 : Nat) = 8 + 8 from rfl, ← List.drop_drop, create_png_drop8]
  rw [List.drop_append_of_le_length (by rw [ihdr_chunk_length]; omega)]
  rw [ihdr_chunk_drop8]
  simp [List.append_assoc]

lemma take_append_len' {α : Type} (a x : List α) (n k : Nat) (hn : n = a.length + k) :
    (a ++ x).take n = a ++ x.take k := by
  subst hn
  exact List.take_append k

/-- C1 (counterexample): calling the encoder on a 0×0 raster does not fail and
does not return an empty result — it returns a 68-byte stream that starts with
the PNG signature, contradicting the claim that no byte sequence is produced. -/
theorem C1_counterexample :
    (create_png 0 0 (102, 126, 234)).take 8 = png_signature ∧
      (create_png 0 0 (102, 126, 234)).length = 68 := by
  refine ⟨create_png_take8 0 0 (102, 126, 234), ?_⟩
  have hdef : deflate_stored [] = [1, 0, 0, 255, 255] := by
    rw [deflate_stored, dif_pos (by norm_num)]
    rfl
  rw [create_png_length, show image_data 0 0 (102, 126, 234) = [] from rfl, zlib_compress, hdef]
  simp only [List.length_cons, List.length_append, be32_length, List.length_nil]

/-- C1 (amended): `create_png` performs no `EmptyRaster` validation.  For every
geometry with width × height = 0 whose dimensions lie in [0, 2^32) — the
domain on which `struct.pack` of the IHDR fields succeeds — it does not fail:
it still returns the full four-part byte stream — signature, IHDR chunk, one
IDAT chunk compressing the (empty or filter-bytes-only) scanline stream, IEND
chunk — of length ≥ 57 and beginning with the PNG signature.  (Outside that
domain the program fails with `struct.error`, not `EmptyRaster`.) -/
theorem C1_no_empty_raster_error (w h : Nat) (c : Nat × Nat × Nat) (hwh : w * h = 0)
    (hw : w < 2 ^ 32) (hh : h < 2 ^ 32) :
    create_png w h c =
      png_signature
        ++ create_chunk [0x49, 0x48, 0x44, 0x52] (be32 w ++ be32 h ++ [8, 2, 0, 0, 0])
        ++ create_chunk [0x49, 0x44, 0x41, 0x54] (zlib_compress (image_data w h c))
        ++ create_chunk [0x49, 0x45, 0x4E, 0x44] []
      ∧ (create_png w h c).take 8 = png_signature
      ∧ 57 ≤ (create_png w h c).length := by
  refine ⟨create_png_eq w h c, create_png_take8 w h c, ?_⟩
  rw [create_png_length]
  omega

/-- C1 (witness): the amended theorem applied at width 0, height 5. -/
theorem C1_witness :
    0 * 5 = 0 ∧ (0 : Nat) < 2 ^ 32 ∧ (5 : Nat) < 2 ^ 32 ∧
      (create_png 0 5 (102, 126, 234) =
        png_signature
          ++ create_chunk [0x49, 0x48, 0x44, 0x52] (be32 0 ++ be32 5 ++ [8, 2, 0, 0, 0])
          ++ create_chunk [0x49, 0x44, 0x41, 0x54]
            (zlib_compress (image_data 0 5 (102, 126, 234)))
          ++ create_chunk [0x49, 0x45, 0x4E, 0x44] []
        ∧ (create_png 0 5 (102, 126, 234)).take 8 = png_signature
        ∧ 57 ≤ (create_png 0 5 (102, 126, 234)).length) :=
  ⟨rfl, by decide, by decide,
    C1_no_empty_raster_error 0 5 (102, 126, 234) rfl (by decide) (by decide)⟩

/-- C2 (confirmed): for valid geometry and base color and any pixel position
(x, y), the three bytes of pixel (x, y) in the scanline stream equal the
claim's description: each base channel first darkened by up to 30%
proportionally to y/height, the already-vertically-darkened value then further
darkened by up to 20% proportionally to x/width, and the result clamped to
[0, 255] after the two reductions. -/
theorem C2_gradient_pixels (w h r g b x y : Nat) (hw : 1 ≤ w) (hh : 1 ≤ h)
    (hr : r ≤ 255) (hg : g ≤ 255) (hb : b ≤ 255) (hx : x < w) (hy : y < h) :
    ((image_data w h (r, g, b)).drop (y * (1 + w * 3) + (1 + 3 * x))).take 3 =
      [spec_gradient_channel r w h x y, spec_gradient_channel g w h x y,
        spec_gradient_channel b w h x y] :=
  image_data_pixel w h r g b x y hx hy

/-- C2 (witness): the theorem applied at a 2×2 raster, pixel (1, 1). -/
theorem C2_witness :
    (1 : Nat) ≤ 2 ∧ (102 : Nat) ≤ 255 ∧
      ((image_data 2 2 (102, 126, 234)).drop (1 * (1 + 2 * 3) + (1 + 3 * 1))).take 3 =
        [spec_gradient_channel 102 2 2 1 1, spec_gradient_channel 126 2 2 1 1,
          spec_gradient_channel 234 2 2 1 1] :=
  ⟨by decide, by decide,
    C2_gradient_pixels 2 2 102 126 234 1 1 (by decide) (by decide) (by decide) (by decide)
      (by decide) (by decide) (by decide)⟩

/-- C3 (confirmed): the uncompressed stream is one filter byte 0 and width×3
pixel bytes per row, so its length is height × (1 + width×3) and every
(1 + width×3)-th byte is 0; zlib-decompressing the concatenated IDAT payloads
of the output yields exactly this stream. -/
theorem C3_scanline_stream (w h r g b : Nat) (hw : 1 ≤ w) (hh : 1 ≤ h)
    (hsize : 6 * (h * (1 + w * 3)) + 11 < 2 ^ 32) :
    (image_data w h (r, g, b)).length = h * (1 + w * 3) ∧
      (∀ y, y < h → (image_data w h (r, g, b))[y * (1 + w * 3)]? = some 0) ∧
      (idat_payloads (create_png w h (r, g, b))).bind zlib_decompress =
        some (image_data w h (r, g, b)) := by
  have hclen : (zlib_compress (image_data w h (r, g, b))).length < 2 ^ 32 := by
    have h1 := zlib_compress_length_le (image_data w h (r, g, b))
    rw [image_data_length] at h1
    omega
  refine ⟨image_data_length w h (r, g, b),
    fun y hy => image_data_filter_byte w h (r, g, b) y hy, ?_⟩
  rw [idat_payloads_create_png w h (r, g, b) hclen]
  exact zlib_decompress_compress (image_data w h (r, g, b))

/-- C3 (witness): the theorem applied at a 1×1 raster. -/
theorem C3_witness :
    (1 : Nat) ≤ 1 ∧ 6 * (1 * (1 + 1 * 3)) + 11 < 2 ^ 32 ∧
      ((image_data 1 1 (102, 126, 234)).length = 1 * (1 + 1 * 3) ∧
        (∀ y, y < 1 → (image_data 1 1 (102, 126, 234))[y * (1 + 1 * 3)]? = some 0) ∧
        (idat_payloads (create_png 1 1 (102, 126, 234))).bind zlib_decompress =
          some (image_data 1 1 (102, 126, 234))) :=
  ⟨by decide, by decide,
    C3_scanline_stream 1 1 102 126 234 (by decide) (by decide) (by decide)⟩

/-- C4 (confirmed): for every valid input the output begins with the exact
8-byte PNG signature and ends with a valid IEND chunk: zero length, empty
payload, CRC equal to the CRC-32 of the 4-byte tag IEND alone (the standard
value 0xAE426082). -/
theorem C4_signature_and_iend (w h : Nat) (c : Nat × Nat × Nat) (hw : 1 ≤ w) (hh : 1 ≤ h) :
    (create_png w h c).take 8 = png_signature ∧
      (create_png w h c).drop ((create_png w h c).length - 12) =
        be32 0 ++ [0x49, 0x45, 0x4E, 0x44] ++ be32 (crc32 [0x49, 0x45, 0x4E, 0x44]) ∧
      crc32 [0x49, 0x45, 0x4E, 0x44] = 0xAE426082 := by
  have hcrc : crc32 [0x49, 0x45, 0x4E, 0x44] = 0xAE426082 := by decide
  refine ⟨create_png_take8 w h c, ?_, hcrc⟩
  rw [create_png_iend, create_chunk_eq]
  simp only [List.append_nil]
  rw [hcrc]
  norm_num

/-- C4 (witness): the theorem applied at a 1×1 raster. -/
theorem C4_witness :
    (1 : Nat) ≤ 1 ∧
      ((create_png 1 1 (0, 0, 0)).take 8 = png_signature ∧
        (create_png 1 1 (0, 0, 0)).drop ((create_png 1 1 (0, 0, 0)).length - 12) =
          be32 0 ++ [0x49, 0x45, 0x4E, 0x44] ++ be32 (crc32 [0x49, 0x45, 0x4E, 0x44]) ∧
        crc32 [0x49, 0x45, 0x4E, 0x44] = 0xAE426082) :=
  ⟨by decide, C4_signature_and_iend 1 1 (0, 0, 0) (by decide) (by decide)⟩

/-- C5 (confirmed): the IHDR payload of the output is exactly the 13 bytes
width and height as 4-byte big-endian integers followed by bit depth 8, color
type 2, compression 0, filter 0, interlace 0, and decoding the width and
height fields of the produced bytes gives back the supplied values. -/
theorem C5_ihdr_payload (w h : Nat) (c : Nat × Nat × Nat) (hw : w < 2 ^ 32)
    (hh : h < 2 ^ 32) :
    ((create_png w h c).drop 16).take 13 = be32 w ++ be32 h ++ [8, 2, 0, 0, 0] ∧
      be32_decode (((create_png w h c).drop 16).take 4) = w ∧
      be32_decode (((create_png w h c).drop 20).take 4) = h := by
  refine ⟨?_, ?_, ?_⟩
  · rw [create_png_drop16]
    rw [take_append_len' _ _ 13 9 (by rw [be32_length])]
    rw [take_append_len' _ _ 9 5 (by rw [be32_length])]
    rw [take_append_len' _ _ 5 0 (by rfl), List.take_zero, List.append_nil]
    simp [List.append_assoc]
  · rw [create_png_drop16, List.take_left' (be32_length w), be32_decode_be32,
      Nat.mod_eq_of_lt hw]
  · rw [show (20 : Nat) = 16 + 4 from rfl, ← List.drop_drop, create_png_drop16,
      List.drop_left' (be32_length w), List.take_left' (be32_length h), be32_decode_be32,
      Nat.mod_eq_of_lt hh]

/-- C5 (witness): the theorem applied at width 1, height 1. -/
theorem C5_witness :
    (1 : Nat) < 2 ^ 32 ∧
      (((create_png 1 1 (0, 0, 0)).drop 16).take 13 = be32 1 ++ be32 1 ++ [8, 2, 0, 0, 0] ∧
        be32_decode (((create_png 1 1 (0, 0, 0)).drop 16).take 4) = 1 ∧
        be32_decode (((create_png 1 1 (0, 0, 0)).drop 20).take 4) = 1) :=
  ⟨by decide, C5_ihdr_payload 1 1 (0, 0, 0) (by decide) (by decide)⟩

/-- C6 (confirmed): for every type tag and payload of bytes, `create_chunk`
emits exactly the 4-byte big-endian payload length, the tag, the payload and a
4-byte big-endian CRC-32 over tag ++ payload, where the CRC is the standard
one: register initialised to 0xFFFFFFFF, one byte step per input byte with the
standard reflected polynomial, final inversion (witnessed by the standard
check value crc32("123456789") = 0xCBF43926). -/
theorem C6_chunk_framing (t d : List Nat) (hbytes : ∀ v ∈ t ++ d, v < 256) :
    create_chunk t d = be32 d.length ++ t ++ d ++ be32 (crc32 (t ++ d)) ∧
      (be32 d.length).length = 4 ∧
      crc32 (t ++ d) = (List.foldl crc32_update 0xFFFFFFFF (t ++ d)) ^^^ 0xFFFFFFFF ∧
      crc32 [0x31, 0x32, 0x33, 0x34, 0x35, 0x36, 0x37, 0x38, 0x39] = 0xCBF43926 := by
  refine ⟨?_, be32_length _, rfl, by decide⟩
  rw [create_chunk_eq, Nat.mod_eq_of_lt (crc32_lt _ hbytes)]
  simp [List.append_assoc]

/-- C6 (witness): the theorem applied to the IEND tag with empty payload. -/
theorem C6_witness :
    (∀ v ∈ [0x49, 0x45, 0x4E, 0x44] ++ ([] : List Nat), v < 256) ∧
      (create_chunk [0x49, 0x45, 0x4E, 0x44] [] =
          be32 ([] : List Nat).length ++ [0x49, 0x45, 0x4E, 0x44] ++ [] ++
            be32 (crc32 ([0x49, 0x45, 0x4E, 0x44] ++ [])) ∧
        (be32 ([] : List Nat).length).length = 4 ∧
        crc32 ([0x49, 0x45, 0x4E, 0x44] ++ []) =
          (List.foldl crc32_update 0xFFFFFFFF ([0x49, 0x45, 0x4E, 0x44] ++ [])) ^^^
            0xFFFFFFFF ∧
        crc32 [0x31, 0x32, 0x33, 0x34, 0x35, 0x36, 0x37, 0x38, 0x39] = 0xCBF43926) :=
  ⟨by decide, C6_chunk_framing [0x49, 0x45, 0x4E, 0x44] [] (by decide)⟩

/-- C7 (counterexample): calling the encoder with base channel 300 (outside
[0, 255]) does not fail and does produce output: a byte stream of length ≥ 57
beginning with the PNG signature, contradicting the claim that such a call
fails with an InvalidColor error and produces nothing. -/
theorem C7_counterexample :
    (create_png 2 2 (300, 0, 0)).take 8 = png_signature ∧
      57 ≤ (create_png 2 2 (300, 0, 0)).length :=
  ⟨create_png_take8 2 2 (300, 0, 0), by rw [create_png_length]; omega⟩

/-- C7 (amended): the code has no `InvalidDimension` or `InvalidColor`
validation.  Calls with width = 0, height = 0, or a base channel above 255 —
with both dimensions inside [0, 2^32), the domain on which `struct.pack` of
the IHDR fields succeeds — do not fail: they return the complete four-part PNG
byte stream, and every scanline byte is clamped into [0, 255].  (Negative or
≥ 2^32 dimensions make the program fail, but with `struct.error` from
`struct.pack`, not with the claimed `InvalidDimension` error, and negative
values are outside this Nat embedding.) -/
theorem C7_no_input_validation (w h r g b : Nat)
    (hinvalid : w = 0 ∨ h = 0 ∨ 255 < r ∨ 255 < g ∨ 255 < b)
    (hw : w < 2 ^ 32) (hh : h < 2 ^ 32) :
    create_png w h (r, g, b) =
      png_signature
        ++ create_chunk [0x49, 0x48, 0x44, 0x52] (be32 w ++ be32 h ++ [8, 2, 0, 0, 0])
        ++ create_chunk [0x49, 0x44, 0x41, 0x54] (zlib_compress (image_data w h (r, g, b)))
        ++ create_chunk [0x49, 0x45, 0x4E, 0x44] []
      ∧ ∀ v ∈ image_data w h (r, g, b), v ≤ 255 :=
  ⟨create_png_eq w h (r, g, b), image_data_bytes_le w h (r, g, b)⟩

/-- C7 (witness): the amended theorem applied at base color (300, 0, 0). -/
theorem C7_witness :
    ((2 : Nat) = 0 ∨ (2 : Nat) = 0 ∨ (255 : Nat) < 300 ∨ (255 : Nat) < 0 ∨ (255 : Nat) < 0) ∧
      (2 : Nat) < 2 ^ 32 ∧
      (create_png 2 2 (300, 0, 0) =
          png_signature
            ++ create_chunk [0x49, 0x48, 0x44, 0x52] (be32 2 ++ be32 2 ++ [8, 2, 0, 0, 0])
            ++ create_chunk [0x49, 0x44, 0x41, 0x54]
              (zlib_compress (image_data 2 2 (300, 0, 0)))
            ++ create_chunk [0x49, 0x45, 0x4E, 0x44] []
        ∧ ∀ v ∈ image_data 2 2 (300, 0, 0), v ≤ 255) :=
  ⟨by decide, by decide,
    C7_no_input_validation 2 2 300 0 0 (by decide) (by decide) (by decide)⟩

/-- C8 (confirmed): the pipeline is deterministic — two invocations of the
raster construction and of the encoder on equal inputs return identical byte
sequences; there is no state, timestamp or randomness anywhere in the model. -/
theorem C8_determinism (w1 h1 w2 h2 : Nat) (c1 c2 : Nat × Nat × Nat)
    (hw : w1 = w2) (hh : h1 = h2) (hc : c1 = c2) :
    image_data w1 h1 c1 = image_data w2 h2 c2 ∧
      create_png w1 h1 c1 = create_png w2 h2 c2 := by
  subst hw
  subst hh
  subst hc
  exact ⟨rfl, rfl⟩

/-- C8 (witness): the theorem applied at two identical 192×192 invocations. -/
theorem C8_witness :
    (192 : Nat) = 192 ∧
      (image_data 192 192 (102, 126, 234) = image_data 192 192 (102, 126, 234) ∧
        create_png 192 192 (102, 126, 234) = create_png 192 192 (102, 126, 234)) :=
  ⟨rfl, C8_determinism 192 192 192 192 (102, 126, 234) (102, 126, 234) rfl rfl rfl⟩

/-- C9 (confirmed): with width = height = 1 the pipeline succeeds with no
division by zero — the gradient factors evaluate to 0/1 = 0 exactly, so the
single pixel equals the base color — and the output is the complete one-pixel
PNG stream. -/
theorem C9_one_pixel (r g b : Nat) (hr : r ≤ 255) (hg : g ≤ 255) (hb : b ≤ 255) :
    image_data 1 1 (r, g, b) = [0, r, g, b] ∧
      create_png 1 1 (r, g, b) =
        png_signature
          ++ create_chunk [0x49, 0x48, 0x44, 0x52] (be32 1 ++ be32 1 ++ [8, 2, 0, 0, 0])
          ++ create_chunk [0x49, 0x44, 0x41, 0x54] (zlib_compress [0, r, g, b])
          ++ create_chunk [0x49, 0x45, 0x4E, 0x44] [] := by
  have h1 := image_data_one_one r g b hr hg hb
  refine ⟨h1, ?_⟩
  rw [create_png_eq, h1]

/-- C9 (witness): the theorem applied at the repository's theme color. -/
theorem C9_witness :
    (102 : Nat) ≤ 255 ∧
      (image_data 1 1 (102, 126, 234) = [0, 102, 126, 234] ∧
        create_png 1 1 (102, 126, 234) =
          png_signature
            ++ create_chunk [0x49, 0x48, 0x44, 0x52] (be32 1 ++ be32 1 ++ [8, 2, 0, 0, 0])
            ++ create_chunk [0x49, 0x44, 0x41, 0x54] (zlib_compress [0, 102, 126, 234])
            ++ create_chunk [0x49, 0x45, 0x4E, 0x44] []) :=
  ⟨by decide, C9_one_pixel 102 126 234 (by decide) (by decide) (by decide)⟩

/-- C10 (confirmed): the output is exactly signature, IHDR chunk, a single
IDAT chunk whose payload is the entire compressed stream of the scanline data
(never split), and the IEND chunk — parsing the produced bytes yields exactly
those three chunks in order. -/
theorem C10_single_idat (w h : Nat) (c : Nat × Nat × Nat)
    (hsize : 6 * (h * (1 + w * 3)) + 11 < 2 ^ 32) :
    create_png w h c =
      png_signature
        ++ create_chunk [0x49, 0x48, 0x44, 0x52] (be32 w ++ be32 h ++ [8, 2, 0, 0, 0])
        ++ create_chunk [0x49, 0x44, 0x41, 0x54] (zlib_compress (image_data w h c))
        ++ create_chunk [0x49, 0x45, 0x4E, 0x44] [] ∧
      png_chunks (create_png w h c) =
        some [([0x49, 0x48, 0x44, 0x52], be32 w ++ be32 h ++ [8, 2, 0, 0, 0]),
              ([0x49, 0x44, 0x41, 0x54], zlib_compress (image_data w h c)),
              ([0x49, 0x45, 0x4E, 0x44], [])] := by
  have hclen : (zlib_compress (image_data w h c)).length < 2 ^ 32 := by
    have h1 := zlib_compress_length_le (image_data w h c)
    rw [image_data_length] at h1
    omega
  exact ⟨create_png_eq w h c, png_chunks_create_png w h c hclen⟩

/-- C10 (witness): the theorem applied at a 1×1 raster. -/
theorem C10_witness :
    6 * (1 * (1 + 1 * 3)) + 11 < 2 ^ 32 ∧
      (create_png 1 1 (0, 0, 0) =
          png_signature
            ++ create_chunk [0x49, 0x48, 0x44, 0x52] (be32 1 ++ be32 1 ++ [8, 2, 0, 0, 0])
            ++ create_chunk [0x49, 0x44, 0x41, 0x54] (zlib_compress (image_data 1 1 (0, 0, 0)))
            ++ create_chunk [0x49, 0x45, 0x4E, 0x44] [] ∧
        png_chunks (create_png 1 1 (0, 0, 0)) =
          some [([0x49, 0x48, 0x44, 0x52], be32 1 ++ be32 1 ++ [8, 2, 0, 0, 0]),
                ([0x49, 0x44, 0x41, 0x54], zlib_compress (image_data 1 1 (0, 0, 0))),
                ([0x49, 0x45, 0x4E, 0x44], [])]) :=
  ⟨by decide, C10_single_idat 1 1 (0, 0, 0) (by decide)⟩

end CreateIcons
